import Mathlib

/-!
Verification of the ingestion pipeline and similarity engine of the
Financial News Intelligence System (FinSight-AI).

The development shallowly embeds the Python sources:

* `src/backend/embeddings.py` — vector codec, cosine similarity, duplicate
  detection, semantic search;
* `src/backend/groq_integration.py` — defensive JSON recovery from language
  model completions;
* `src/backend/app.py` (`add_article`) — the ingestion pipeline over an
  explicit relational store, with the external collaborators (embedding
  model, language model) passed in as black-box functions, as the design
  document prescribes.

Machine floats are idealised as exact rational inputs with real-valued
cosine similarity; byte blobs are modelled as integer lists.
-/

namespace FinSight

/-! ### Vectors and the similarity scorer (`embeddings.py`) -/

/-- Dot product of two rational vectors, truncating to the common length
(the guarded branch of `sklearn` cosine similarity only runs on
equal-dimension inputs, where no truncation happens). -/
def dotQ (a b : List ℚ) : ℚ := (List.zipWith (· * ·) a b).sum

theorem dotQ_nil_left (b : List ℚ) : dotQ [] b = 0 := rfl

theorem dotQ_cons_cons (x y : ℚ) (as bs : List ℚ) :
    dotQ (x :: as) (y :: bs) = x * y + dotQ as bs := by
  simp [dotQ]

theorem dotQ_self_nonneg (a : List ℚ) : 0 ≤ dotQ a a := by
  induction a with
  | nil => simp [dotQ]
  | cons x as ih =>
      rw [dotQ_cons_cons]
      nlinarith [sq_nonneg x]

theorem dotQ_zero_left (a b : List ℚ) (h : ∀ x ∈ a, x = 0) : dotQ a b = 0 := by
  induction a generalizing b with
  | nil => simp [dotQ]
  | cons x as ih =>
      cases b with
      | nil => simp [dotQ]
      | cons y bs =>
          rw [dotQ_cons_cons, h x (by simp), ih bs (fun z hz => h z (by simp [hz]))]
          ring

theorem dotQ_zero_right (a b : List ℚ) (h : ∀ x ∈ b, x = 0) : dotQ a b = 0 := by
  induction a generalizing b with
  | nil => simp [dotQ]
  | cons x as ih =>
      cases b with
      | nil => simp [dotQ]
      | cons y bs =>
          rw [dotQ_cons_cons, h y (by simp), ih bs (fun z hz => h z (by simp [hz]))]
          ring

/-- Sum of the squared cross terms `(x * bᵢ - y * aᵢ)²`, used in the
Lagrange-identity proof of the Cauchy-Schwarz inequality. -/
def crossSq (x y : ℚ) (as bs : List ℚ) : ℚ :=
  ((List.zipWith (fun p q => x * q - y * p) as bs).map (fun z => z ^ 2)).sum

theorem crossSq_nonneg (x y : ℚ) (as bs : List ℚ) : 0 ≤ crossSq x y as bs := by
  induction as generalizing bs with
  | nil => simp [crossSq]
  | cons p as ih =>
      cases bs with
      | nil => simp [crossSq]
      | cons q bs =>
          have h1 := ih bs
          have h2 : crossSq x y (p :: as) (q :: bs)
              = (x * q - y * p) ^ 2 + crossSq x y as bs := by
            simp [crossSq]
          rw [h2]
          nlinarith [sq_nonneg (x * q - y * p)]

theorem crossSq_eq (x y : ℚ) (as bs : List ℚ) (h : as.length = bs.length) :
    crossSq x y as bs
      = x ^ 2 * dotQ bs bs - 2 * (x * y) * dotQ as bs + y ^ 2 * dotQ as as := by
  induction as generalizing bs with
  | nil =>
      cases bs with
      | nil => simp [crossSq, dotQ]
      | cons q bs => simp at h
  | cons p as ih =>
      cases bs with
      | nil => simp at h
      | cons q bs =>
          have hlen : as.length = bs.length := by simpa using h
          have h2 : crossSq x y (p :: as) (q :: bs)
              = (x * q - y * p) ^ 2 + crossSq x y as bs := by
            simp [crossSq]
          rw [h2, ih bs hlen, dotQ_cons_cons, dotQ_cons_cons, dotQ_cons_cons]
          ring

/-- Cauchy-Schwarz for equal-length rational vectors. -/
theorem dotQ_sq_le (a b : List ℚ) (h : a.length = b.length) :
    dotQ a b ^ 2 ≤ dotQ a a * dotQ b b := by
  induction a generalizing b with
  | nil =>
      cases b with
      | nil => simp [dotQ]
      | cons y bs => simp at h
  | cons x as ih =>
      cases b with
      | nil => simp at h
      | cons y bs =>
          have hlen : as.length = bs.length := by simpa using h
          have hIH := ih bs hlen
          have hkey : (dotQ (x :: as) (x :: as)) * (dotQ (y :: bs) (y :: bs))
              - (dotQ (x :: as) (y :: bs)) ^ 2
              = crossSq x y as bs + (dotQ as as * dotQ bs bs - dotQ as bs ^ 2) := by
            rw [crossSq_eq x y as bs hlen, dotQ_cons_cons, dotQ_cons_cons,
              dotQ_cons_cons]
            ring
          have hcs := crossSq_nonneg x y as bs
          nlinarith [hcs, hIH, hkey]

/-- Embeds `calculate_similarity` from `embeddings.py`: cosine similarity of
the two vectors.  A dimension mismatch raises inside `sklearn` and is caught,
yielding `0.0`; with the Lean convention `x / 0 = 0` a zero-norm input also
yields `0`, exactly as `sklearn` treats zero rows. -/
noncomputable def calculate_similarity (e1 e2 : List ℚ) : ℝ :=
  if e1.length = e2.length then
    (dotQ e1 e2 : ℝ) / (Real.sqrt (dotQ e1 e1 : ℚ) * Real.sqrt (dotQ e2 e2 : ℚ))
  else 0

theorem calculate_similarity_bounds (e1 e2 : List ℚ) :
    -1 ≤ calculate_similarity e1 e2 ∧ calculate_similarity e1 e2 ≤ 1 := by
  unfold calculate_similarity
  split
  case isTrue h =>
      set q : ℝ := (dotQ e1 e2 : ℝ) with hq
      set A : ℝ := ((dotQ e1 e1 : ℚ) : ℝ) with hA
      set B : ℝ := ((dotQ e2 e2 : ℚ) : ℝ) with hB
      have hA0 : 0 ≤ A := by rw [hA]; exact_mod_cast dotQ_self_nonneg e1
      have hB0 : 0 ≤ B := by rw [hB]; exact_mod_cast dotQ_self_nonneg e2
      have hqs : q ^ 2 ≤ A * B := by
        rw [hq, hA, hB]
        have := dotQ_sq_le e1 e2 h
        exact_mod_cast this
      set D : ℝ := Real.sqrt A * Real.sqrt B with hD
      have hD0 : 0 ≤ D := mul_nonneg (Real.sqrt_nonneg _) (Real.sqrt_nonneg _)
      rcases eq_or_lt_of_le hD0 with hDz | hDpos
      · rw [← hDz]
        norm_num
      · have habs : |q| ≤ D := by
          have h1 : |q| = Real.sqrt (q ^ 2) := (Real.sqrt_sq_eq_abs q).symm
          have h2 : Real.sqrt (q ^ 2) ≤ Real.sqrt (A * B) := Real.sqrt_le_sqrt hqs
          have h3 : Real.sqrt (A * B) = D := by
            rw [hD, Real.sqrt_mul hA0]
          rw [h1, ← h3] at *
          exact le_trans h2 (le_of_eq h3)
        have hdiv : |q / D| ≤ 1 := by
          rw [abs_div, abs_of_pos hDpos]
          exact (div_le_one hDpos).mpr (by simpa [abs_div] using habs)
        exact abs_le.mp hdiv
  case isFalse h => norm_num

theorem calculate_similarity_mismatch (e1 e2 : List ℚ)
    (h : e1.length ≠ e2.length) : calculate_similarity e1 e2 = 0 := by
  unfold calculate_similarity
  simp [h]

theorem calculate_similarity_zero_left (e1 e2 : List ℚ)
    (h : ∀ x ∈ e1, x = 0) : calculate_similarity e1 e2 = 0 := by
  unfold calculate_similarity
  split
  · rw [dotQ_zero_left e1 e2 h]
    norm_num
  · rfl

theorem calculate_similarity_zero_right (e1 e2 : List ℚ)
    (h : ∀ x ∈ e2, x = 0) : calculate_similarity e1 e2 = 0 := by
  unfold calculate_similarity
  split
  · rw [dotQ_zero_right e1 e2 h]
    norm_num
  · rfl

theorem calculate_similarity_self_of_dot_one (v : List ℚ) (h : dotQ v v = 1) :
    calculate_similarity v v = 1 := by
  unfold calculate_similarity
  rw [if_pos rfl, h]
  norm_num

/-! ### Duplicate detector (`embeddings.py`) -/

/-- Embeds `detect_duplicate_articles`: duplicate iff the similarity reaches
the caller-supplied threshold, which defaults to `0.85`. -/
noncomputable def detect_duplicate_articles (e1 e2 : List ℚ)
    (threshold : ℝ := 0.85) : Bool × ℝ :=
  let s := calculate_similarity e1 e2
  (decide (s ≥ threshold), s)

theorem detect_fst_true {e1 e2 : List ℚ} {t : ℝ}
    (h : t ≤ calculate_similarity e1 e2) :
    (detect_duplicate_articles e1 e2 t).1 = true := by
  simp [detect_duplicate_articles, GE.ge]
  exact h

theorem detect_fst_false {e1 e2 : List ℚ} {t : ℝ}
    (h : ¬ t ≤ calculate_similarity e1 e2) :
    (detect_duplicate_articles e1 e2 t).1 = false := by
  simp [detect_duplicate_articles, GE.ge]
  exact not_le.mp h

/-! ### Vector codec (`embeddings.py`: `serialize_embedding`,
`deserialize_embedding`, `get_embedding`) -/

/-- Embeds `serialize_embedding` (`pickle.dumps`): the opaque byte blob is
modelled as an integer list carrying a length header followed by the
numerator/denominator pairs of the entries. -/
def serialize_embedding (v : List ℚ) : List ℤ :=
  (v.length : ℤ) :: v.foldr (fun q acc => q.num :: (q.den : ℤ) :: acc) []

/-- Decodes `n` numerator/denominator pairs; fails on malformed data. -/
def decodeRats : ℕ → List ℤ → Option (List ℚ)
  | 0, [] => some []
  | 0, _ :: _ => none
  | _ + 1, [] => none
  | _ + 1, [_] => none
  | n + 1, a :: b :: rest =>
      if b ≤ 0 then none
      else (decodeRats n rest).map (fun v => ((a : ℚ) / (b : ℚ)) :: v)

/-- Decoder half of the pickle model: reads the length header and then the
entries, failing (like `pickle.loads` raising) on any malformed blob. -/
def decodeBlob : List ℤ → Option (List ℚ)
  | [] => none
  | n :: rest => if n < 0 then none else decodeRats n.toNat rest

/-- Embeds `deserialize_embedding`: a blob that fails to decode yields the
zero vector of dimension 384 instead of an error. -/
def deserialize_embedding (data : List ℤ) : List ℚ :=
  match decodeBlob data with
  | some v => v
  | none => List.replicate 384 0

theorem decodeRats_serialize (v : List ℚ) :
    decodeRats v.length (v.foldr (fun q acc => q.num :: (q.den : ℤ) :: acc) [])
      = some v := by
  induction v with
  | nil => rfl
  | cons q v ih =>
      have hden : ¬ ((q.den : ℤ) ≤ 0) := by
        have := q.den_pos
        omega
      simp only [List.length_cons, List.foldr_cons, decodeRats, hden, if_false,
        ih]
      simp [Rat.num_div_den]

/-- The codec round-trips exactly on every vector. -/
theorem deserialize_serialize (v : List ℚ) :
    deserialize_embedding (serialize_embedding v) = v := by
  unfold deserialize_embedding serialize_embedding decodeBlob
  have h : ¬ ((v.length : ℤ) < 0) := by omega
  simp [h, decodeRats_serialize v]

theorem deserialize_corrupt (data : List ℤ) (h : decodeBlob data = none) :
    deserialize_embedding data = List.replicate 384 0 := by
  unfold deserialize_embedding
  rw [h]

/-- Embeds `get_embedding`: calls the embedding collaborator and falls back
to the all-zero 384-vector when the collaborator raises.  The collaborator
(`model.encode`) is external, so it is passed in as a fallible function. -/
def get_embedding (encode : String → Except Unit (List ℚ)) (text : String) :
    List ℚ :=
  match encode text with
  | .ok v => v
  | .error _ => List.replicate 384 0

/-! ### Semantic ranker (`embeddings.py`: `semantic_search_articles`) -/

/-- An article dictionary as passed to `semantic_search_articles`: the
`embedding` field holds the stored blob, possibly `NULL`. -/
structure SearchArticle where
  id : ℕ
  title : String
  content : String
  embedding : Option (List ℤ)
deriving DecidableEq

/-- Python truthiness of the `embedding` field (`if article.get('embedding')`):
`None` and the empty byte string are falsy. -/
def truthyBytes : Option (List ℤ) → Bool
  | some (_ :: _) => true
  | _ => false

/-- Descending order on the attached similarity scores, as a Boolean
comparator for the stable sort (`results.sort(key=..., reverse=True)`). -/
noncomputable def simDescLe (x y : SearchArticle × ℝ) : Bool :=
  decide (y.2 ≤ x.2)

/-- Embeds `semantic_search_articles`: embeds the query, scores every article
whose embedding field is truthy, sorts by score descending (stably, as
Python's `list.sort` with `reverse=True`), and truncates to `top_k`. -/
noncomputable def semantic_search_articles
    (encode : String → Except Unit (List ℚ)) (query : String)
    (articles : List SearchArticle) (top_k : ℕ) :
    List (SearchArticle × ℝ) :=
  let query_embedding := get_embedding encode query
  let results := (articles.filter (fun a => truthyBytes a.embedding)).map
    (fun a =>
      (a, calculate_similarity query_embedding
            (deserialize_embedding (a.embedding.getD []))))
  (results.mergeSort simDescLe).take top_k

theorem simDescLe_trans (a b c : SearchArticle × ℝ)
    (h1 : simDescLe a b) (h2 : simDescLe b c) : simDescLe a c := by
  simp only [simDescLe, decide_eq_true_eq] at *
  exact le_trans h2 h1

theorem simDescLe_total (a b : SearchArticle × ℝ) :
    simDescLe a b || simDescLe b a := by
  simp only [simDescLe, decide_eq_true_eq, Bool.or_eq_true]
  exact (le_total b.2 a.2).imp id id

/-! ### Defensive JSON recovery (`groq_integration.py`)

The language-model completion is plain text expected to contain a JSON
object.  `json.loads` is modelled by a recursive-descent parser for the
JSON fragment exchanged here (objects, arrays, strings without escapes,
integers, booleans, null); like `json.loads` it rejects trailing data.
The regex `re.search(r'\x7b.*\x7d', text, re.DOTALL)` is greedy: it spans
from the first opening brace to the last closing brace. -/

/-- JSON values (integer-number fragment). -/
inductive Json where
  | null : Json
  | bool : Bool → Json
  | num : ℤ → Json
  | str : String → Json
  | arr : List Json → Json
  | obj : List (String × Json) → Json

/-- JSON insignificant whitespace. -/
def isWs (c : Char) : Bool :=
  c = ' ' || c = '\n' || c = '\t' || c = '\r'

def skipWs (cs : List Char) : List Char := cs.dropWhile isWs

def digitVal (c : Char) : ℕ := c.toNat - 48

def natOfDigits (ds : List Char) : ℕ :=
  ds.foldl (fun acc c => acc * 10 + digitVal c) 0

/-- Reads the body of a JSON string up to the closing quote (escape-free
fragment). -/
def pStrBody : List Char → Option (List Char × List Char)
  | [] => none
  | c :: rest =>
      if c = '"' then some ([], rest)
      else
        match pStrBody rest with
        | some (s, r) => some (c :: s, r)
        | none => none

mutual

/-- Parses one JSON value, returning it with the unconsumed remainder. -/
def pVal : ℕ → List Char → Option (Json × List Char)
  | 0, _ => none
  | n + 1, cs =>
      match skipWs cs with
      | 't' :: 'r' :: 'u' :: 'e' :: r => some (Json.bool true, r)
      | 'f' :: 'a' :: 'l' :: 's' :: 'e' :: r => some (Json.bool false, r)
      | 'n' :: 'u' :: 'l' :: 'l' :: r => some (Json.null, r)
      | '"' :: r =>
          match pStrBody r with
          | some (s, r2) => some (Json.str (String.mk s), r2)
          | none => none
      | '{' :: r => pObj n r
      | '[' :: r => pArr n r
      | '-' :: r =>
          match r.takeWhile Char.isDigit with
          | [] => none
          | ds => some (Json.num (-(natOfDigits ds : ℤ)), r.drop ds.length)
      | c :: r =>
          if c.isDigit then
            let ds := (c :: r).takeWhile Char.isDigit
            some (Json.num (natOfDigits ds : ℤ), (c :: r).drop ds.length)
          else none
      | [] => none

/-- Parses the interior of a JSON object, after the opening brace. -/
def pObj : ℕ → List Char → Option (Json × List Char)
  | 0, _ => none
  | n + 1, cs =>
      match skipWs cs with
      | '}' :: r => some (Json.obj [], r)
      | _ =>
          match pMembers n cs with
          | some (ms, r) => some (Json.obj ms, r)
          | none => none

/-- Parses a nonempty comma-separated member list, consuming the closing
brace. -/
def pMembers : ℕ → List Char → Option (List (String × Json) × List Char)
  | 0, _ => none
  | n + 1, cs =>
      match skipWs cs with
      | '"' :: r =>
          match pStrBody r with
          | none => none
          | some (k, r2) =>
              match skipWs r2 with
              | ':' :: r3 =>
                  match pVal n r3 with
                  | none => none
                  | some (v, r4) =>
                      match skipWs r4 with
                      | ',' :: r5 =>
                          match pMembers n r5 with
                          | some (ms, r6) => some ((String.mk k, v) :: ms, r6)
                          | none => none
                      | '}' :: r5 => some ([(String.mk k, v)], r5)
                      | _ => none
              | _ => none
      | _ => none

/-- Parses the interior of a JSON array, after the opening bracket. -/
def pArr : ℕ → List Char → Option (Json × List Char)
  | 0, _ => none
  | n + 1, cs =>
      match skipWs cs with
      | ']' :: r => some (Json.arr [], r)
      | _ =>
          match pElems n cs with
          | some (vs, r) => some (Json.arr vs, r)
          | none => none

/-- Parses a nonempty comma-separated element list, consuming the closing
bracket. -/
def pElems : ℕ → List Char → Option (List Json × List Char)
  | 0, _ => none
  | n + 1, cs =>
      match pVal n cs with
      | none => none
      | some (v, r) =>
          match skipWs r with
          | ',' :: r2 =>
              match pElems n r2 with
              | some (vs, r3) => some (v :: vs, r3)
              | none => none
          | ']' :: r2 => some ([v], r2)
          | _ => none

end

/-- Models `json.loads`: a full parse of the input, rejecting any trailing
non-whitespace data (Python raises `Extra data`). -/
def json_loads (s : String) : Option Json :=
  match pVal (s.length + 1) s.toList with
  | some (j, rest) => if (skipWs rest).isEmpty then some j else none
  | none => none

/-- The suffix starting at the first occurrence of `c`, if any. -/
def afterFirst (c : Char) : List Char → Option (List Char)
  | [] => none
  | x :: xs => if x = c then some (x :: xs) else afterFirst c xs

/-- The prefix ending at the last occurrence of `c` (inclusive), if any. -/
def untilLast (c : Char) (cs : List Char) : Option (List Char) :=
  match afterFirst c cs.reverse with
  | some r => some r.reverse
  | none => none

/-- The span matched by the greedy regex search for a brace-delimited block:
from the first opening brace to the last closing brace after it. -/
def braceSpanL (cs : List Char) : Option (List Char) :=
  match afterFirst '{' cs with
  | none => none
  | some suf => untilLast '}' suf

/-- Embeds the shared fallback chain of `extract_entities`,
`map_stock_impact` and `analyze_sentiment`: parse the completion directly;
on failure parse the greedy brace span; if that too fails (the exception
escapes to the outer handler) or no span exists, return the documented
default. -/
def parse_llm_json (d : Json) (s : String) : Json :=
  match json_loads s with
  | some j => j
  | none =>
      match braceSpanL s.toList with
      | some t =>
          match json_loads (String.mk t) with
          | some j => j
          | none => d
      | none => d

/-- The empty-entities default object of `extract_entities`. -/
def entitiesDefault : Json :=
  Json.obj [("companies", Json.arr []), ("sectors", Json.arr []),
    ("regulators", Json.arr []), ("people", Json.arr []),
    ("events", Json.arr [])]

/-- The neutral default object of `analyze_sentiment` (score `0.0`). -/
def sentimentDefault : Json :=
  Json.obj [("sentiment", Json.str "neutral"), ("sentiment_score", Json.num 0),
    ("price_impact", Json.str "neutral"), ("impact_magnitude", Json.str "low")]

/-- Embeds the parsing stage of `extract_entities` applied to a completion
(or a raised collaborator error). -/
def extract_entities_result (completion : Except Unit String) : Json :=
  match completion with
  | .error _ => entitiesDefault
  | .ok s => parse_llm_json entitiesDefault s

/-- Embeds the parsing stage of `analyze_sentiment` applied to a completion
(or a raised collaborator error). -/
def analyze_sentiment_result (completion : Except Unit String) : Json :=
  match completion with
  | .error _ => sentimentDefault
  | .ok s => parse_llm_json sentimentDefault s

/-- Specification-side definition, following the spec text only: the first
well-formed JSON object substring of the completion (earliest start
position; shortest match there). -/
def specFirstJsonObject : List Char → Option (List Char)
  | [] => none
  | c :: rest =>
      match ((List.range (rest.length + 2)).map ((c :: rest).take ·)).find?
          (fun t =>
            match json_loads (String.mk t) with
            | some (Json.obj _) => true
            | _ => false) with
      | some t => some t
      | none => specFirstJsonObject rest

/-! ### Relational store (`database.py` schema) and ingestion
(`app.py`: `add_article`) -/

/-- A row of the `articles` table. -/
structure ArticleRow where
  id : ℕ
  title : String
  content : String
  source : Option String
  url : Option String
  published_date : Option String
  embedding : List ℤ
  is_duplicate : Bool
  canonical_id : Option ℕ
deriving DecidableEq

/-- A row of the `entities` table. -/
structure EntityRow where
  article_id : ℕ
  entity_text : String
  entity_type : String
  confidence : ℚ
deriving DecidableEq

/-- A row of the `stock_impacts` table (`stock.get(...)` may be absent). -/
structure StockImpactRow where
  article_id : ℕ
  stock_symbol : Option String
  impact_type : Option String
  confidence : ℚ
  sentiment : Option String
deriving DecidableEq

/-- A row of the `deduplication_records` table. -/
structure DedupRow where
  article_id_1 : ℕ
  article_id_2 : ℕ
  similarity_score : ℝ
  is_duplicate : Bool

/-- The persistent store, with rows listed in insertion order. -/
structure DB where
  articles : List ArticleRow
  entities : List EntityRow
  stock_impacts : List StockImpactRow
  deduplication_records : List DedupRow

/-- One entry of a `map_stock_impact` result's `stocks` list; the fields are
read with `stock.get`, so each may be absent (`confidence` defaults to
`0.5`). -/
structure StockSpec where
  symbol : Option String
  impact_type : Option String
  confidence : Option ℚ

/-- The external collaborators consumed by `add_article`, passed as
black-box functions: the embedding encoder (which may raise) and the
already-recovered dictionary outcomes of the language-model helpers
(`extract_entities`, `map_stock_impact`, `analyze_sentiment`), which by
their fallback chains never raise. -/
structure Collab where
  encode : String → Except Unit (List ℚ)
  entitiesOf : String → List (String × List String)
  impactOf : String → String → List StockSpec
  sentimentOf : String → Json

/-- The request body of `POST /articles`. -/
structure ArticleIn where
  title : String
  content : String
  source : Option String
  url : Option String
  published_date : Option String

/-- The JSON object returned by a successful `add_article` call. -/
structure IngestResp where
  id : ℕ
  title : String
  is_duplicate : Bool
  canonical_id : Option ℕ
  entities : List (String × List String)
  sentiment : Json

/-- `lastrowid` of the next article insert (`AUTOINCREMENT`). -/
def nextId (db : DB) : ℕ := (db.articles.map (·.id)).foldr max 0 + 1

/-- The `UNIQUE` constraint on `articles.url`: a present url conflicts with
any stored row carrying the same url (`NULL`s never conflict). -/
def urlConflict (db : DB) (url : Option String) : Bool :=
  match url with
  | none => false
  | some u => db.articles.any (fun r => r.url = some u)

/-- The duplicate scan of `add_article`: walk the non-duplicate articles in
insertion order and stop at the first whose stored embedding is within
threshold `0.85` of the new embedding. -/
noncomputable def findDup (emb : List ℚ) : List ArticleRow → Option (ℕ × ℝ)
  | [] => none
  | e :: rest =>
      let r := detect_duplicate_articles emb (deserialize_embedding e.embedding) 0.85
      if r.1 then some (e.id, r.2) else findDup emb rest

theorem findDup_nil (emb : List ℚ) : findDup emb [] = none := rfl

theorem findDup_cons_of_true (emb : List ℚ) (e : ArticleRow)
    (rest : List ArticleRow)
    (h : (detect_duplicate_articles emb (deserialize_embedding e.embedding)
      0.85).1 = true) :
    findDup emb (e :: rest)
      = some (e.id,
          (detect_duplicate_articles emb (deserialize_embedding e.embedding)
            0.85).2) := by
  simp [findDup, h]

theorem findDup_cons_of_false (emb : List ℚ) (e : ArticleRow)
    (rest : List ArticleRow)
    (h : (detect_duplicate_articles emb (deserialize_embedding e.embedding)
      0.85).1 = false) :
    findDup emb (e :: rest) = findDup emb rest := by
  simp [findDup, h]

/-- Embeds `add_article` from `app.py`.  The steps, in source order: embed
the content (fail-soft), serialize, scan the stored non-duplicate articles
for a first duplicate match at threshold `0.85`, insert the article row
(the `UNIQUE` url constraint aborts the whole request, leaving the store
unchanged since nothing was committed), then unconditionally insert the
extracted entity rows and the mapped stock-impact rows, compute the
sentiment, commit, and return the response object.  No
`deduplication_records` row is ever written here. -/
noncomputable def add_article (C : Collab) (a : ArticleIn) (db : DB) :
    Except String IngestResp × DB :=
  let emb := get_embedding C.encode a.content
  let embBytes := serialize_embedding emb
  let existing := db.articles.filter (fun r => !r.is_duplicate)
  let dup := findDup emb existing
  if urlConflict db a.url then
    (.error "UNIQUE constraint failed: articles.url", db)
  else
    let aid := nextId db
    let row : ArticleRow :=
      ⟨aid, a.title, a.content, a.source, a.url, a.published_date, embBytes,
        dup.isSome, dup.map (·.1)⟩
    let ents := C.entitiesOf a.content
    let entRows := ents.flatMap
      (fun tp => tp.2.map (fun t => EntityRow.mk aid t tp.1 1))
    let impRows :=
      (ents.filter (fun tp => tp.1 == "companies" || tp.1 == "sectors")).flatMap
        (fun tp => tp.2.flatMap (fun ent =>
          (C.impactOf a.content ent).map
            (fun st => StockImpactRow.mk aid st.symbol st.impact_type
              (st.confidence.getD (1 / 2)) none)))
    (.ok ⟨aid, a.title, dup.isSome, dup.map (·.1), ents,
        C.sentimentOf a.content⟩,
      ⟨db.articles ++ [row], db.entities ++ entRows,
        db.stock_impacts ++ impRows, db.deduplication_records⟩)

/-! ### Claim theorems -/

/-- Claim C5: for all vector inputs `a` and `b`, `calculate_similarity`
returns a value in `[-1, 1]`; mismatched dimensions or an all-zero input
yield exactly `0` (and the function is total, never raising). -/
theorem C5_similarity_bounds (a b : List ℚ) :
    (-1 ≤ calculate_similarity a b ∧ calculate_similarity a b ≤ 1)
    ∧ (a.length ≠ b.length → calculate_similarity a b = 0)
    ∧ ((∀ x ∈ a, x = 0) → calculate_similarity a b = 0)
    ∧ ((∀ x ∈ b, x = 0) → calculate_similarity a b = 0) :=
  ⟨calculate_similarity_bounds a b,
   calculate_similarity_mismatch a b,
   calculate_similarity_zero_left a b,
   calculate_similarity_zero_right a b⟩

/-- Witness for C5 at concrete vectors. -/
theorem C5_similarity_bounds_witness :
    (-1 ≤ calculate_similarity [1] [2] ∧ calculate_similarity [1] [2] ≤ 1)
    ∧ calculate_similarity [1, 2] [3] = 0
    ∧ calculate_similarity [0, 0] [3, 4] = 0
    ∧ calculate_similarity [3, 4] [0, 0] = 0 :=
  ⟨(C5_similarity_bounds [1] [2]).1,
   (C5_similarity_bounds [1, 2] [3]).2.1 (by decide),
   (C5_similarity_bounds [0, 0] [3, 4]).2.2.1 (by decide),
   (C5_similarity_bounds [3, 4] [0, 0]).2.2.2 (by decide)⟩

/-- Claim C6: `detect_duplicate_articles a b t` returns the pair `(d, s)`
with `s = calculate_similarity a b` and `d = true` iff `s ≥ t`; the
threshold parameter defaults to `0.85` and is configurable per call. -/
theorem C6_detect_duplicate_rule (a b : List ℚ) (t : ℝ) :
    ((detect_duplicate_articles a b t).1 = true
      ↔ calculate_similarity a b ≥ t)
    ∧ (detect_duplicate_articles a b t).2 = calculate_similarity a b
    ∧ detect_duplicate_articles a b = detect_duplicate_articles a b 0.85 := by
  refine ⟨?_, rfl, rfl⟩
  simp [detect_duplicate_articles]

/-- Claim C8: the codec round-trips exactly on every vector, and a blob
that fails to decode deserializes to the zero vector instead of raising. -/
theorem C8_codec_roundtrip (v : List ℚ) :
    deserialize_embedding (serialize_embedding v) = v
    ∧ ∀ bs : List ℤ, decodeBlob bs = none →
        deserialize_embedding bs = List.replicate 384 0 :=
  ⟨deserialize_serialize v, fun bs h => deserialize_corrupt bs h⟩

/-- Witness for C8: a concrete round trip and a concrete corrupt blob. -/
theorem C8_codec_roundtrip_witness :
    deserialize_embedding (serialize_embedding [1, 2]) = [1, 2]
    ∧ deserialize_embedding [5] = List.replicate 384 0 :=
  ⟨(C8_codec_roundtrip [1, 2]).1, (C8_codec_roundtrip [1, 2]).2 [5] rfl⟩

/-- Claim C7: `semantic_search_articles` scores the query against every
item, returns the results sorted in descending similarity order truncated
to `top_k`; an oversized `top_k` returns the full collection ranked, and an
empty collection returns the empty list, never an error. -/
theorem C7_semantic_search (encode : String → Except Unit (List ℚ))
    (query : String) (articles : List SearchArticle) (top_k : ℕ)
    (hall : ∀ a ∈ articles, truthyBytes a.embedding = true) :
    List.Pairwise (fun x y => y.2 ≤ x.2)
        (semantic_search_articles encode query articles top_k)
    ∧ (semantic_search_articles encode query articles top_k).length
        = min top_k articles.length
    ∧ (articles.length ≤ top_k →
        List.Perm (semantic_search_articles encode query articles top_k)
          (articles.map (fun a =>
            (a, calculate_similarity (get_embedding encode query)
              (deserialize_embedding (a.embedding.getD []))))))
    ∧ (articles = [] →
        semantic_search_articles encode query articles top_k = []) := by
  have hfilter : articles.filter (fun a => truthyBytes a.embedding) = articles :=
    List.filter_eq_self.mpr hall
  have hdef : semantic_search_articles encode query articles top_k
      = ((articles.map (fun a =>
            (a, calculate_similarity (get_embedding encode query)
              (deserialize_embedding (a.embedding.getD []))))).mergeSort
          simDescLe).take top_k := by
    unfold semantic_search_articles
    rw [hfilter]
  have hperm :
      List.Perm
        ((articles.map (fun a =>
            (a, calculate_similarity (get_embedding encode query)
              (deserialize_embedding (a.embedding.getD []))))).mergeSort
          simDescLe)
        (articles.map (fun a =>
            (a, calculate_similarity (get_embedding encode query)
              (deserialize_embedding (a.embedding.getD []))))) :=
    List.mergeSort_perm _ _
  have hlen : ((articles.map (fun a =>
            (a, calculate_similarity (get_embedding encode query)
              (deserialize_embedding (a.embedding.getD []))))).mergeSort
          simDescLe).length = articles.length := by
    rw [hperm.length_eq, List.length_map]
  refine ⟨?_, ?_, ?_, ?_⟩
  · rw [hdef]
    have hsorted := List.sorted_mergeSort
      (fun a b c => simDescLe_trans a b c) (fun a b => simDescLe_total a b)
      (articles.map (fun a =>
        (a, calculate_similarity (get_embedding encode query)
          (deserialize_embedding (a.embedding.getD [])))))
    have hsorted2 : List.Pairwise (fun x y : SearchArticle × ℝ => y.2 ≤ x.2)
        ((articles.map (fun a =>
            (a, calculate_similarity (get_embedding encode query)
              (deserialize_embedding (a.embedding.getD []))))).mergeSort
          simDescLe) := by
      refine hsorted.imp ?_
      intro x y hxy
      simpa [simDescLe] using hxy
    exact hsorted2.sublist (List.take_sublist _ _)
  · rw [hdef, List.length_take, hlen]
  · intro hk
    rw [hdef, List.take_of_length_le (by omega : _ ≤ top_k)]
    · exact hperm
  · intro hempty
    subst hempty
    rw [hdef]
    simp

/-- Witness for C7 at a concrete corpus whose embedding blobs are present. -/
theorem C7_semantic_search_witness :
    List.Pairwise (fun x y => y.2 ≤ x.2)
        (semantic_search_articles (fun _ => .ok [1]) "q"
          [⟨1, "t", "c", some (serialize_embedding [1])⟩] 2)
    ∧ (semantic_search_articles (fun _ => .ok [1]) "q"
          [⟨1, "t", "c", some (serialize_embedding [1])⟩] 2).length
        = min 2 [(⟨1, "t", "c", some (serialize_embedding [1])⟩ : SearchArticle)].length
    ∧ ([(⟨1, "t", "c", some (serialize_embedding [1])⟩ : SearchArticle)].length ≤ 2 →
        List.Perm (semantic_search_articles (fun _ => .ok [1]) "q"
            [⟨1, "t", "c", some (serialize_embedding [1])⟩] 2)
          ([(⟨1, "t", "c", some (serialize_embedding [1])⟩ : SearchArticle)].map
            (fun a =>
              (a, calculate_similarity (get_embedding (fun _ => .ok [1]) "q")
                (deserialize_embedding (a.embedding.getD []))))))
    ∧ ([(⟨1, "t", "c", some (serialize_embedding [1])⟩ : SearchArticle)] = [] →
        semantic_search_articles (fun _ => .ok [1]) "q"
          [⟨1, "t", "c", some (serialize_embedding [1])⟩] 2 = []) :=
  C7_semantic_search (fun _ => .ok [1]) "q"
    [⟨1, "t", "c", some (serialize_embedding [1])⟩] 2 (by decide)

/-- Evaluation helper: the stored blob of the unit vector scores similarity
`1` against a fresh embedding equal to it. -/
theorem sim_unit_self :
    calculate_similarity [1] (deserialize_embedding (serialize_embedding [1]))
      = 1 := by
  rw [deserialize_serialize]
  exact calculate_similarity_self_of_dot_one [1] (by norm_num [dotQ])

/-- The zero-vector fallback never matches any stored article: its
similarity against anything is `0`, below the `0.85` threshold. -/
theorem findDup_zero (l : List ArticleRow) :
    findDup (List.replicate 384 0) l = none := by
  induction l with
  | nil => rfl
  | cons e rest ih =>
      have hz : ∀ x ∈ List.replicate 384 (0 : ℚ), x = 0 :=
        fun x hx => List.eq_of_mem_replicate hx
      have hs : calculate_similarity (List.replicate 384 0)
          (deserialize_embedding e.embedding) = 0 :=
        calculate_similarity_zero_left _ _ hz
      have hf : (detect_duplicate_articles (List.replicate 384 0)
          (deserialize_embedding e.embedding) 0.85).1 = false := by
        refine detect_fst_false ?_
        rw [hs]
        norm_num
      rw [findDup_cons_of_false _ _ _ hf, ih]

/-- Claim C10: ingesting an article whose url equals the url of a stored
article fails on the `UNIQUE` constraint with an error, and the store is
unchanged: no article, entity-mention or stock-impact row is committed. -/
theorem C10_unique_url (C : Collab) (a : ArticleIn) (db : DB) (u : String)
    (hu : a.url = some u) (hex : ∃ r ∈ db.articles, r.url = some u) :
    add_article C a db = (.error "UNIQUE constraint failed: articles.url", db)
    := by
  have hc : urlConflict db a.url = true := by
    rw [hu]
    unfold urlConflict
    rw [List.any_eq_true]
    obtain ⟨r, hr, hru⟩ := hex
    exact ⟨r, hr, by simp [hru]⟩
  unfold add_article
  simp [hc]

/-- Concrete inputs shared by the pipeline scenarios. -/
def urow : ArticleRow :=
  ⟨1, "t1", "c1", none, some "http://x", none, serialize_embedding [1], false,
    none⟩

def db10 : DB := ⟨[urow], [], [], []⟩

def a10 : ArticleIn := ⟨"t2", "c2", none, some "http://x", none⟩

def collabOk : Collab :=
  ⟨fun _ => .ok [1], fun _ => [("companies", ["Acme"])],
    fun _ _ => [⟨some "ACME", some "direct", some (9 / 10)⟩],
    fun _ => Json.null⟩

/-- Witness for C10 at a concrete colliding url. -/
theorem C10_unique_url_witness :
    add_article collabOk a10 db10
      = (.error "UNIQUE constraint failed: articles.url", db10) :=
  C10_unique_url collabOk a10 db10 "http://x" rfl
    ⟨urow, by simp [db10], rfl⟩

/-- Claim C9: if the embedding collaborator raises during ingestion,
`get_embedding` yields the all-zero 384-vector, and `add_article` still
completes, persisting the zero-vector-backed article (which then matches no
stored article, so it is stored unique and non-canonicalized). -/
theorem C9_zero_vector_fallback (C : Collab) (a : ArticleIn) (db : DB)
    (henc : C.encode a.content = .error ())
    (hurl : urlConflict db a.url = false) :
    get_embedding C.encode a.content = List.replicate 384 0
    ∧ (add_article C a db).1
        = .ok ⟨nextId db, a.title, false, none, C.entitiesOf a.content,
            C.sentimentOf a.content⟩
    ∧ (add_article C a db).2.articles
        = db.articles
          ++ [⟨nextId db, a.title, a.content, a.source, a.url,
              a.published_date, serialize_embedding (List.replicate 384 0),
              false, none⟩] := by
  have hemb : get_embedding C.encode a.content = List.replicate 384 0 := by
    unfold get_embedding
    rw [henc]
  refine ⟨hemb, ?_, ?_⟩ <;>
    simp only [add_article, hemb, findDup_zero, hurl, Bool.false_eq_true,
      if_false, Option.isSome_none, Option.map_none']

/-- Witness for C9: a collaborator that always raises still yields a
persisted zero-vector article. -/
theorem C9_zero_vector_fallback_witness :
    get_embedding (fun _ => .error ()) "c2" = List.replicate 384 0
    ∧ (add_article ⟨fun _ => .error (), fun _ => [], fun _ _ => [],
          fun _ => Json.null⟩ ⟨"t2", "c2", none, none, none⟩
          ⟨[], [], [], []⟩).1
        = .ok ⟨nextId ⟨[], [], [], []⟩, "t2", false, none, [], Json.null⟩
    ∧ (add_article ⟨fun _ => .error (), fun _ => [], fun _ _ => [],
          fun _ => Json.null⟩ ⟨"t2", "c2", none, none, none⟩
          ⟨[], [], [], []⟩).2.articles
        = ([] : List ArticleRow)
          ++ [⟨nextId ⟨[], [], [], []⟩, "t2", "c2", none, none, none,
              serialize_embedding (List.replicate 384 0), false, none⟩] :=
  C9_zero_vector_fallback
    ⟨fun _ => .error (), fun _ => [], fun _ _ => [], fun _ => Json.null⟩
    ⟨"t2", "c2", none, none, none⟩ ⟨[], [], [], []⟩ rfl rfl

/-- Claim C3: the duplicate scan walks the stored non-duplicate articles in
insertion order and stops at the first candidate reaching the threshold: if
A, B, C (in that order) all reach the threshold against the new article, its
canonical reference is set to A. -/
theorem C3_first_match (C : Collab) (a : ArticleIn) (db : DB)
    (A B Cc : ArticleRow)
    (hfilter : db.articles.filter (fun r => !r.is_duplicate) = [A, B, Cc])
    (hA : 0.85 ≤ calculate_similarity (get_embedding C.encode a.content)
      (deserialize_embedding A.embedding))
    (_hB : 0.85 ≤ calculate_similarity (get_embedding C.encode a.content)
      (deserialize_embedding B.embedding))
    (_hC : 0.85 ≤ calculate_similarity (get_embedding C.encode a.content)
      (deserialize_embedding Cc.embedding))
    (hurl : urlConflict db a.url = false) :
    (∃ resp : IngestResp, (add_article C a db).1 = .ok resp
      ∧ resp.is_duplicate = true ∧ resp.canonical_id = some A.id)
    ∧ (∃ row : ArticleRow,
        (add_article C a db).2.articles = db.articles ++ [row]
        ∧ row.is_duplicate = true ∧ row.canonical_id = some A.id) := by
  have hdup : findDup (get_embedding C.encode a.content)
      (db.articles.filter (fun r => !r.is_duplicate))
      = some (A.id, (detect_duplicate_articles
          (get_embedding C.encode a.content)
          (deserialize_embedding A.embedding) 0.85).2) := by
    rw [hfilter]
    exact findDup_cons_of_true _ _ _ (detect_fst_true hA)
  constructor
  · refine ⟨⟨nextId db, a.title, true, some A.id, C.entitiesOf a.content,
      C.sentimentOf a.content⟩, ?_, rfl, rfl⟩
    simp [add_article, hurl, hdup]
  · refine ⟨⟨nextId db, a.title, a.content, a.source, a.url, a.published_date,
      serialize_embedding (get_embedding C.encode a.content), true,
      some A.id⟩, ?_, rfl, rfl⟩
    simp [add_article, hurl, hdup]

/-- Concrete three-candidate store for the first-match scenario. -/
def rowA : ArticleRow :=
  ⟨1, "tA", "cA", none, none, none, serialize_embedding [1], false, none⟩

def rowB : ArticleRow :=
  ⟨2, "tB", "cB", none, none, none, serialize_embedding [1], false, none⟩

def rowC : ArticleRow :=
  ⟨3, "tC", "cC", none, none, none, serialize_embedding [1], false, none⟩

def db3 : DB := ⟨[rowA, rowB, rowC], [], [], []⟩

def a3 : ArticleIn := ⟨"tD", "cD", none, none, none⟩

/-- Witness for C3: all three stored articles match the new one; the first
one becomes canonical. -/
theorem C3_first_match_witness :
    (∃ resp : IngestResp, (add_article collabOk a3 db3).1 = .ok resp
      ∧ resp.is_duplicate = true ∧ resp.canonical_id = some rowA.id)
    ∧ (∃ row : ArticleRow,
        (add_article collabOk a3 db3).2.articles = db3.articles ++ [row]
        ∧ row.is_duplicate = true ∧ row.canonical_id = some rowA.id) := by
  have hsim : ∀ r : ArticleRow, r.embedding = serialize_embedding [1] →
      0.85 ≤ calculate_similarity (get_embedding collabOk.encode a3.content)
        (deserialize_embedding r.embedding) := by
    intro r hr
    rw [hr]
    have hge : get_embedding collabOk.encode a3.content = [1] := rfl
    rw [hge, sim_unit_self]
    norm_num
  exact C3_first_match collabOk a3 db3 rowA rowB rowC (by decide)
    (hsim rowA rfl) (hsim rowB rfl) (hsim rowC rfl) rfl

/-! ### Duplicate ingestion scenario (claims C1 and C2) -/

/-- A stored unique article backed by the unit vector. -/
def row1 : ArticleRow :=
  ⟨1, "t1", "c1", none, none, none, serialize_embedding [1], false, none⟩

def db1 : DB := ⟨[row1], [], [], []⟩

def a1 : ArticleIn := ⟨"t2", "c2", none, none, none⟩

/-- Evaluation helper: the duplicate scan on the concrete store flags the
new unit-vector article against `row1`. -/
theorem findDup_db1 :
    findDup (get_embedding collabOk.encode a1.content)
        (db1.articles.filter (fun r => !r.is_duplicate))
      = some (1, (detect_duplicate_articles [1]
          (deserialize_embedding row1.embedding) 0.85).2) := by
  have hdet : (detect_duplicate_articles [1]
      (deserialize_embedding row1.embedding) 0.85).1 = true := by
    refine detect_fst_true ?_
    show (0.85 : ℝ) ≤ calculate_similarity [1]
      (deserialize_embedding (serialize_embedding [1]))
    rw [sim_unit_self]
    norm_num
  rw [show get_embedding collabOk.encode a1.content = [1] from rfl,
    show db1.articles.filter (fun r => !r.is_duplicate) = [row1] from rfl]
  exact findDup_cons_of_true [1] row1 [] hdet

/-- Counterexample to claim C1: the ingestion of a detected duplicate still
inserts its extracted Entity Mention and Stock Impact rows — the duplicate
ends up with one of each, not zero. -/
theorem C1_counterexample :
    (add_article collabOk a1 db1).1
      = .ok ⟨2, "t2", true, some 1, [("companies", ["Acme"])], Json.null⟩
    ∧ (add_article collabOk a1 db1).2.entities
      = [⟨2, "Acme", "companies", 1⟩]
    ∧ (add_article collabOk a1 db1).2.stock_impacts
      = [⟨2, some "ACME", some "direct", 9 / 10, none⟩] := by
  refine ⟨?_, ?_, ?_⟩ <;> (simp [add_article, findDup_db1]; try rfl)

/-- Claim C1 (amended): enrichment is not skipped for duplicates —
`add_article` appends the entity rows extracted from the content and the
stock-impact rows mapped for its company/sector entities for every
successful ingestion, regardless of the duplicate verdict; a duplicate
article therefore has zero Entity Mentions and Stock Impacts only when the
collaborators return none. -/
theorem C1_enrichment_unconditional (C : Collab) (a : ArticleIn) (db : DB)
    (hurl : urlConflict db a.url = false) :
    (add_article C a db).2.entities
      = db.entities ++ (C.entitiesOf a.content).flatMap
          (fun tp => tp.2.map (fun t => EntityRow.mk (nextId db) t tp.1 1))
    ∧ (add_article C a db).2.stock_impacts
      = db.stock_impacts ++ ((C.entitiesOf a.content).filter
          (fun tp => tp.1 == "companies" || tp.1 == "sectors")).flatMap
          (fun tp => tp.2.flatMap (fun ent =>
            (C.impactOf a.content ent).map
              (fun st => StockImpactRow.mk (nextId db) st.symbol
                st.impact_type (st.confidence.getD (1 / 2)) none))) := by
  refine ⟨?_, ?_⟩ <;>
    simp only [add_article, hurl, Bool.false_eq_true, if_false]

/-- Witness for the amended C1 at the concrete duplicate scenario. -/
theorem C1_enrichment_unconditional_witness :
    (add_article collabOk a1 db1).2.entities
      = db1.entities ++ (collabOk.entitiesOf a1.content).flatMap
          (fun tp => tp.2.map (fun t => EntityRow.mk (nextId db1) t tp.1 1))
    ∧ (add_article collabOk a1 db1).2.stock_impacts
      = db1.stock_impacts ++ ((collabOk.entitiesOf a1.content).filter
          (fun tp => tp.1 == "companies" || tp.1 == "sectors")).flatMap
          (fun tp => tp.2.flatMap (fun ent =>
            (collabOk.impactOf a1.content ent).map
              (fun st => StockImpactRow.mk (nextId db1) st.symbol
                st.impact_type (st.confidence.getD (1 / 2)) none))) :=
  C1_enrichment_unconditional collabOk a1 db1 rfl

/-- Counterexample to claim C2: ingesting a detected duplicate creates no
Duplicate Relation audit record — `deduplication_records` stays empty
instead of receiving exactly one row. -/
theorem C2_counterexample :
    (∃ resp : IngestResp, (add_article collabOk a1 db1).1 = .ok resp
      ∧ resp.is_duplicate = true)
    ∧ (add_article collabOk a1 db1).2.deduplication_records = [] := by
  constructor
  · refine ⟨⟨2, "t2", true, some 1, [("companies", ["Acme"])], Json.null⟩,
      ?_, rfl⟩
    simp [add_article, findDup_db1]
    try rfl
  · simp [add_article, findDup_db1]
    try rfl

/-- Claim C2 (amended): `add_article` never writes the
`deduplication_records` store — after any ingestion (flagged duplicate or
not, successful or aborted) it is exactly what it was before; the only
writer of such records in the repository is the separate mock-data
loader. -/
theorem C2_no_dedup_record (C : Collab) (a : ArticleIn) (db : DB) :
    (add_article C a db).2.deduplication_records
      = db.deduplication_records := by
  unfold add_article
  split <;> rfl

/-! ### JSON recovery behaviour (claim C4) -/

theorem afterFirst_append_not_mem (c : Char) (pre rest : List Char)
    (h : c ∉ pre) : afterFirst c (pre ++ c :: rest) = some (c :: rest) := by
  induction pre with
  | nil => simp [afterFirst]
  | cons x xs ih =>
      have hx : ¬ (x = c) := fun hxc => h (by simp [hxc])
      simp only [List.cons_append, afterFirst, hx, if_false]
      exact ih (fun hm => h (by simp [hm]))

/-- The greedy regex span over a completion that contains exactly one
brace-delimited block surrounded by junk is that block. -/
theorem braceSpan_sandwich (pre mid post : List Char)
    (hpre : '{' ∉ pre) (hpost : '}' ∉ post) :
    braceSpanL (pre ++ ('{' :: (mid ++ ['}'])) ++ post)
      = some ('{' :: (mid ++ ['}'])) := by
  have h1 : pre ++ ('{' :: (mid ++ ['}'])) ++ post
      = pre ++ '{' :: ((mid ++ ['}']) ++ post) := by simp
  unfold braceSpanL
  rw [h1, afterFirst_append_not_mem '{' pre _ hpre]
  show untilLast '}' ('{' :: ((mid ++ ['}']) ++ post))
    = some ('{' :: (mid ++ ['}']))
  unfold untilLast
  have h2 : ('{' :: ((mid ++ ['}']) ++ post)).reverse
      = post.reverse ++ '}' :: (mid.reverse ++ ['{']) := by simp
  rw [h2, afterFirst_append_not_mem '}' post.reverse _ (by simpa using hpost)]
  simp

/-- Claim C4 (amended): when the completion is not directly parseable the
parser retries on the greedy span from the first opening brace to the last
closing brace; a completion whose single brace block is preceded by
brace-free junk and followed by closing-brace-free junk is recovered, and
whenever the span is absent or itself unparseable the documented default is
returned instead of raising. -/
theorem C4_greedy_recovery (d j : Json) (pre mid post : List Char)
    (hpre : '{' ∉ pre) (hpost : '}' ∉ post)
    (hfull : json_loads
      (String.mk (pre ++ ('{' :: (mid ++ ['}'])) ++ post)) = none)
    (hobj : json_loads (String.mk ('{' :: (mid ++ ['}']))) = some j) :
    parse_llm_json d (String.mk (pre ++ ('{' :: (mid ++ ['}'])) ++ post)) = j
    ∧ (∀ (d2 : Json) (s : String), json_loads s = none →
        braceSpanL s.toList = none → parse_llm_json d2 s = d2)
    ∧ (∀ (d2 : Json) (s : String) (t : List Char), json_loads s = none →
        braceSpanL s.toList = some t → json_loads (String.mk t) = none →
        parse_llm_json d2 s = d2) := by
  refine ⟨?_, ?_, ?_⟩
  · unfold parse_llm_json
    rw [hfull]
    have ht : (String.mk (pre ++ ('{' :: (mid ++ ['}'])) ++ post)).toList
        = pre ++ ('{' :: (mid ++ ['}'])) ++ post := rfl
    rw [ht, braceSpan_sandwich pre mid post hpre hpost]
    show (match json_loads (String.mk ('{' :: (mid ++ ['}']))) with
      | some j2 => j2
      | none => d) = j
    rw [hobj]
  · intro d2 s h1 h2
    unfold parse_llm_json
    rw [h1, h2]
  · intro d2 s t h1 h2 h3
    unfold parse_llm_json
    rw [h1, h2]
    show (match json_loads (String.mk t) with
      | some j2 => j2
      | none => d2) = d2
    rw [h3]

/-- Witness for the amended C4: a junk-wrapped single object is recovered;
a brace-free completion and an unparseable span both fall back to the
documented defaults. -/
theorem C4_greedy_recovery_witness :
    parse_llm_json entitiesDefault
        (String.mk (['x'] ++ ('{' :: ([ '"', 'k', '"', ':', '1'] ++ ['}']))
          ++ ['y']))
      = Json.obj [("k", Json.num 1)]
    ∧ parse_llm_json entitiesDefault (String.mk ['a', 'b']) = entitiesDefault
    ∧ parse_llm_json sentimentDefault (String.mk ['{', 'x', '}'])
      = sentimentDefault :=
  ⟨(C4_greedy_recovery entitiesDefault (Json.obj [("k", Json.num 1)]) ['x']
      ['"', 'k', '"', ':', '1'] ['y'] (by decide) (by decide) rfl rfl).1,
   (C4_greedy_recovery entitiesDefault (Json.obj [("k", Json.num 1)]) ['x']
      ['"', 'k', '"', ':', '1'] ['y'] (by decide) (by decide) rfl rfl).2.1
      entitiesDefault (String.mk ['a', 'b']) rfl rfl,
   (C4_greedy_recovery entitiesDefault (Json.obj [("k", Json.num 1)]) ['x']
      ['"', 'k', '"', ':', '1'] ['y'] (by decide) (by decide) rfl rfl).2.2
      sentimentDefault (String.mk ['{', 'x', '}']) ['{', 'x', '}'] rfl rfl
      rfl⟩

/-- A completion with two JSON objects separated by junk. -/
def twoObjChars : List Char :=
  ['a', '{', '"', 'k', '"', ':', ' ', '1', '}', 'b',
   '{', '"', 'm', '"', ':', ' ', '2', '}']

/-- The first well-formed JSON object substring of `twoObjChars`. -/
def firstObjChars : List Char := ['{', '"', 'k', '"', ':', ' ', '1', '}']

/-- Counterexample to claim C4: on a completion holding two objects with
junk between them, the first well-formed JSON object substring exists and
parses, but the greedy extraction spans both objects, fails to parse, and
the parser returns the default instead of that first object. -/
theorem C4_counterexample :
    parse_llm_json entitiesDefault (String.mk twoObjChars) = entitiesDefault
    ∧ specFirstJsonObject twoObjChars = some firstObjChars
    ∧ json_loads (String.mk firstObjChars)
      = some (Json.obj [("k", Json.num 1)])
    ∧ Json.obj [("k", Json.num 1)] ≠ entitiesDefault :=
  ⟨rfl, rfl, rfl, by simp [entitiesDefault]⟩

end FinSight
